import Mathlib

/-!
Shallow embedding of the utterance-routing core of ovos-core:
`ovos_core/intent_services/__init__.py` (IntentService) and
`ovos_core/intent_services/fallback_service.py` (FallbackService).

Python dictionaries are modelled as insertion-ordered association lists
(`List (String × α)`): update keeps the position of an existing key,
a fresh key is appended, and `pop` removes the binding.  Machine types
are `Int`/`String`; optional message fields are `Option`; the message
bus is modelled by oracles (the list of discovery pongs processed during
one broadcast, a reply oracle per skill for the direct attempt requests,
and an optional legacy response).
-/

/-- Lookup in an insertion-ordered association list (first binding wins),
the model of `d[k]` / `d.get(k)` on a Python dict. -/
def alistLookup {α : Type} : List (String × α) → String → Option α
  | [], _ => none
  | (k1, v) :: rest, k => if k1 = k then some v else alistLookup rest k

/-- Membership test, the model of `k in d` on a Python dict. -/
def alistContains {α : Type} (d : List (String × α)) (k : String) : Bool :=
  (alistLookup d k).isSome

/-- The model of `d[k] = v` on a Python dict: an existing key keeps its
position and gets the new value, a fresh key is appended at the end. -/
def alistSet {α : Type} : List (String × α) → String → α → List (String × α)
  | [], k, v => [(k, v)]
  | (k1, v1) :: rest, k, v =>
      if k1 = k then (k1, v) :: rest else (k1, v1) :: alistSet rest k v

/-- The model of `d.pop(k)` on a Python dict: remove the binding of `k`. -/
def alistPop {α : Type} : List (String × α) → String → List (String × α)
  | [], _ => []
  | (k1, v1) :: rest, k =>
      if k1 = k then rest else (k1, v1) :: alistPop rest k

/-- The registry `FallbackService.registered_fallbacks`, a Python dict
mapping skill_id to priority. -/
abbrev Registry := List (String × Int)

/-- Embeds `FallbackRange = namedtuple('FallbackRange', ['start', 'stop'])`. -/
structure FallbackRange where
  start : Int
  stop : Int
deriving DecidableEq, Repr

/-- The band membership test used at line 87 of fallback_service.py:
`fb_range.start < p <= fb_range.stop`. -/
def inBand (r : FallbackRange) (p : Int) : Bool :=
  decide (r.start < p) && decide (p ≤ r.stop)

/-- Embeds `FallbackMode` from ovos_workshop (external dependency): the
three operating modes read from `fallback_mode` in the configuration. -/
inductive FallbackMode where
  | accept_all
  | blacklist
  | whitelist
deriving DecidableEq, Repr

/-- The `Configuration()["skills"]["fallbacks"]` section as read by
FallbackService (`fallback_priorities`, `fallback_mode`,
`fallback_blacklist`, `fallback_whitelist`, each with its source default). -/
structure FallbackConfig where
  fallback_priorities : List (String × Int) := []
  fallback_mode : FallbackMode := FallbackMode.accept_all
  fallback_blacklist : List String := []
  fallback_whitelist : List String := []

/-- Embeds `FallbackService.handle_register_fallback` (lines 40-51).
The register message carries `skill_id` and an optional integer
`priority`; `message.data.get("priority") or 101` maps an absent field
and the Python-falsy integer 0 to 101.  A static override in
`fallback_priorities` always wins over the self-reported priority. -/
def handle_register_fallback (cfg : FallbackConfig) (reg : Registry)
    (skill_id : String) (priority : Option Int) : Registry :=
  let p : Int :=
    match priority with
    | none => 101
    | some v => if v = 0 then 101 else v
  match alistLookup cfg.fallback_priorities skill_id with
  | some new_priority => alistSet reg skill_id new_priority
  | none => alistSet reg skill_id p

/-- Embeds `FallbackService.handle_deregister_fallback` (lines 53-56):
pop the skill_id only when it is registered. -/
def handle_deregister_fallback (reg : Registry) (skill_id : String) : Registry :=
  if alistContains reg skill_id then alistPop reg skill_id else reg

/-- Embeds `FallbackService._fallback_allowed` (lines 58-77). -/
def fallback_allowed (cfg : FallbackConfig) (skill_id : String) : Bool :=
  if cfg.fallback_mode = FallbackMode.blacklist
      && cfg.fallback_blacklist.contains skill_id then
    false
  else if cfg.fallback_mode = FallbackMode.whitelist
      && !(cfg.fallback_whitelist.contains skill_id) then
    false
  else
    true

/-- A discovery pong `ovos.skills.fallback.pong` as processed by
`handle_ack`: the sender and its `msg.data.get("can_handle", True)`
value (the default is already resolved into the field). -/
structure Pong where
  skill_id : String
  can_handle : Bool
deriving DecidableEq, Repr

/-- Embeds the inner function `handle_ack` of
`FallbackService._collect_fallback_skills` (lines 90-98), one step over
the accumulator `(skill_ids, fallback_skills)`: a sender with
`can_handle` true that is currently registered is appended to
`fallback_skills`, and every sender is appended to `skill_ids`.  Note
that it does not consult the band. -/
def handle_ack (reg : Registry) (acc : List String × List String)
    (pong : Pong) : List String × List String :=
  if pong.can_handle then
    (acc.1 ++ [pong.skill_id],
     if alistContains reg pong.skill_id then acc.2 ++ [pong.skill_id] else acc.2)
  else
    (acc.1 ++ [pong.skill_id], acc.2)

/-- Embeds `FallbackService._collect_fallback_skills` (lines 79-112).
The bus is abstracted by `pongs`, the pong messages the call-local
`handle_ack` listener processed before the wait loop exited (a discovery
timeout corresponds to a `pongs` list that does not cover every in-scope
handler; both loop exits continue identically).  `skill_ids` is
pre-filled with the ids outside the band (line 88) and only steers the
wait loop; the returned value is `fallback_skills`. -/
def collect_fallback_skills (reg : Registry) (fb_range : FallbackRange)
    (pongs : List Pong) : List String :=
  let in_range := (reg.filter (fun sp => inBand fb_range sp.2)).map Prod.fst
  let initial_skill_ids :=
    (reg.map Prod.fst).filter (fun s => !(in_range.contains s))
  (pongs.foldl (handle_ack reg) (initial_skill_ids, [])).2

/-- Embeds the `IntentMatch` namedtuple of
`ovos_core/intent_services/__init__.py` (lines 37-40).  The opaque
`intent_data` mapping is an association list. -/
structure IntentMatch where
  intent_service : String
  intent_type : Option String
  intent_data : List (String × String)
  skill_id : Option String
deriving DecidableEq, Repr

/-- The match value `IntentMatch('Fallback', None, {}, None)` returned by
`_fallback_range` on band success (lines 168 and 181). -/
def fallbackMatch : IntentMatch :=
  { intent_service := "Fallback", intent_type := none,
    intent_data := [], skill_id := none }

/-- The data of a direct per-handler reply
`ovos.skills.fallback.<skill_id>.response`: `err` models the presence
and content of the `error` key, `result` the `result` entry
(`data.get("result", False)` resolves an absent entry to false). -/
structure SkillReply where
  err : Option String
  result : Option Bool
deriving DecidableEq, Repr

/-- Embeds `FallbackService.attempt_fallback` (lines 114-141).  The bus
round trip `wait_for_response` is abstracted by `response` (`none` is a
timeout); the utterances and language only feed the request payload and
are omitted. -/
def attempt_fallback (cfg : FallbackConfig) (skill_id : String)
    (response : Option SkillReply) : Bool :=
  if fallback_allowed cfg skill_id then
    match response with
    | some r => if r.err.isSome then false else r.result.getD false
    | none => false
  else
    false

/-- The stable ascending insertion used to model Python `sorted(...)`
(CPython sorts are stable): the new element goes before the first
element of greater-or-equal key, keeping earlier-input elements first
among equal keys. -/
def insertByPriority (x : String × Int) : List (String × Int) → List (String × Int)
  | [] => [x]
  | y :: ys => if x.2 ≤ y.2 then x :: y :: ys else y :: insertByPriority x ys

/-- Model of `sorted(fallbacks, key=operator.itemgetter(1))` at line 164:
a stable sort by ascending priority. -/
def sortByPriority (l : List (String × Int)) : List (String × Int) :=
  l.foldr insertByPriority []

/-- The comprehension at lines 162-163: the registered handlers whose id
appears in the collected willing list, in registry (insertion) order. -/
def willing_handlers (reg : Registry) (fb_range : FallbackRange)
    (pongs : List Pong) : List (String × Int) :=
  reg.filter (fun kv => (collect_fallback_skills reg fb_range pongs).contains kv.1)

/-- The `for skill_id, prio in sorted_handlers` loop of `_fallback_range`
(lines 165-168): attempt each handler in order, stop at the first
successful attempt with `IntentMatch('Fallback', None, {}, None)`.
Also returns the list of handlers that received a direct attempt
request, in request order. -/
def attempt_loop (cfg : FallbackConfig) (replies : String → Option SkillReply) :
    List (String × Int) → Option IntentMatch × List (String × Int)
  | [] => (none, [])
  | h :: rest =>
    if attempt_fallback cfg h.1 (replies h.1) then
      (some fallbackMatch, [h])
    else
      let r := attempt_loop cfg replies rest
      (r.1, h :: r.2)

/-- Embeds `FallbackService._fallback_range` (lines 143-182).  The bus is
abstracted by `pongs` (discovery outcome), `replies` (direct per-handler
responses; `none` is a timeout) and `legacy` (the V1 singleton response:
`none` when `wait_for_response` timed out, otherwise the truthiness of
`response.data["handled"]`).  Besides the source return value it returns
the list of handlers that received a direct attempt request. -/
def fallback_range (cfg : FallbackConfig) (reg : Registry) (pongs : List Pong)
    (replies : String → Option SkillReply) (legacy : Option Bool)
    (fb_range : FallbackRange) : Option IntentMatch × List (String × Int) :=
  let sorted_handlers := sortByPriority (willing_handlers reg fb_range pongs)
  let r := attempt_loop cfg replies sorted_handlers
  match r.1 with
  | some m => (some m, r.2)
  | none =>
    match legacy with
    | some handled => (if handled then some fallbackMatch else none, r.2)
    | none => (none, r.2)

/-- Embeds `FallbackService.high_prio` (lines 184-187). -/
def high_prio (cfg : FallbackConfig) (reg : Registry) (pongs : List Pong)
    (replies : String → Option SkillReply) (legacy : Option Bool) :
    Option IntentMatch × List (String × Int) :=
  fallback_range cfg reg pongs replies legacy (FallbackRange.mk 0 5)

/-- Embeds `FallbackService.medium_prio` (lines 189-192). -/
def medium_prio (cfg : FallbackConfig) (reg : Registry) (pongs : List Pong)
    (replies : String → Option SkillReply) (legacy : Option Bool) :
    Option IntentMatch × List (String × Int) :=
  fallback_range cfg reg pongs replies legacy (FallbackRange.mk 5 90)

/-- Embeds `FallbackService.low_prio` (lines 194-197). -/
def low_prio (cfg : FallbackConfig) (reg : Registry) (pongs : List Pong)
    (replies : String → Option SkillReply) (legacy : Option Bool) :
    Option IntentMatch × List (String × Int) :=
  fallback_range cfg reg pongs replies legacy (FallbackRange.mk 90 101)

/-- The results of the external matcher capabilities referenced by
`IntentService.handle_utterance` (converse, the three padatious
confidence tiers, adapt, common_qa).  Each is the optional match the
capability would return for this utterance; the capabilities themselves
live outside this repository. -/
structure MatcherResults where
  converse : Option IntentMatch
  padatious_high : Option IntentMatch
  adapt : Option IntentMatch
  common_qa : Option IntentMatch
  padatious_medium : Option IntentMatch
  padatious_low : Option IntentMatch

/-- The bus environment one fallback band broadcast observes: the pongs
its discovery processed, its per-handler reply oracle and the legacy
singleton response. -/
structure BandEnv where
  pongs : List Pong
  replies : String → Option SkillReply
  legacy : Option Bool

/-- The `match_funcs` list of `IntentService.handle_utterance`
(lines 250-256), in source order, each stage paired with the result it
returns when invoked. -/
def match_funcs (ext : MatcherResults) (cfg : FallbackConfig) (reg : Registry)
    (envH envM envL : BandEnv) : List (String × Option IntentMatch) :=
  [("converse", ext.converse),
   ("padatious_high", ext.padatious_high),
   ("adapt", ext.adapt),
   ("common_qa", ext.common_qa),
   ("fallback_high", (high_prio cfg reg envH.pongs envH.replies envH.legacy).1),
   ("padatious_medium", ext.padatious_medium),
   ("fallback_medium", (medium_prio cfg reg envM.pongs envM.replies envM.legacy).1),
   ("padatious_low", ext.padatious_low),
   ("fallback_low", (low_prio cfg reg envL.pongs envL.replies envL.legacy).1)]

/-- The nine stage names in the fixed source order. -/
def stageNames : List String :=
  ["converse", "padatious_high", "adapt", "common_qa", "fallback_high",
   "padatious_medium", "fallback_medium", "padatious_low", "fallback_low"]

/-- The `for match_func in match_funcs` loop of `handle_utterance`
(lines 259-265): invoke the stages in order, break at the first truthy
match (an IntentMatch namedtuple is always truthy, so truthy means
non-null).  Returns the match and the list of stages invoked. -/
def run_match_funcs : List (String × Option IntentMatch) →
    Option IntentMatch × List String
  | [] => (none, [])
  | f :: rest =>
    match f.2 with
    | some m => (some m, [f.1])
    | none =>
      let r := run_match_funcs rest
      (r.1, f.1 :: r.2)

/-- Python truthiness of `match.intent_type`, an optional string. -/
def pyTruthyStrOpt : Option String → Bool
  | some s => !(s == "")
  | none => false

/-- Observable emissions of one `handle_utterance` call that the claims
mention: the intent invocation reply (`message.reply(match.intent_type,
data)`, line 278-279) and the terminal failure signal
(`send_complete_intent_failure`, lines 291-298, which plays the error
sound and forwards one `complete_intent_failure` message). -/
inductive Emission where
  | reply (msg_type : String)
  | intent_failure
deriving DecidableEq, Repr

/-- Embeds the match-and-dispatch part of `IntentService.handle_utterance`
(lines 258-286): run the stages in order, then either dispatch the match
(emitting the intent invocation when the match names an intent type) or
emit exactly one terminal failure signal.  Returns the match, the list
of invoked stages and the emissions.  The transform stage, language
setup and stopwatch do not affect these outputs and are omitted. -/
def handle_utterance (ext : MatcherResults) (cfg : FallbackConfig)
    (reg : Registry) (envH envM envL : BandEnv) :
    Option IntentMatch × List String × List Emission :=
  let r := run_match_funcs (match_funcs ext cfg reg envH envM envL)
  let emitted : List Emission :=
    match r.1 with
    | some m =>
      if pyTruthyStrOpt m.intent_type then
        [Emission.reply (m.intent_type.getD "")]
      else
        []
    | none => [Emission.intent_failure]
  (r.1, r.2, emitted)

/-- The configuration object as read by `IntentService.disambiguate_lang`
(lines 176-200): string-valued entries and list-valued entries,
looked up by literal key. -/
structure LangConfig where
  strCfg : List (String × String) := []
  listCfg : List (String × List String) := []

/-- Model of `cfg.get(key, default)` for a string-valued entry. -/
def cfgGetStr (cfg : LangConfig) (k : String) (d : String) : String :=
  (alistLookup cfg.strCfg k).getD d

/-- Model of `cfg.get(key, default)` for a list-valued entry. -/
def cfgGetList (cfg : LangConfig) (k : String) (d : List String) : List String :=
  (alistLookup cfg.listCfg k).getD d

/-- The fixed probe order `lang_keys` of `disambiguate_lang` (lines 187-189). -/
def lang_keys : List String := ["stt_lang", "request_lang", "detected_lang"]

/-- The `for k in lang_keys` loop of `disambiguate_lang` (lines 190-198):
return the first present context value that is in `valid_langs`, skipping
present-but-invalid values. -/
def disambiguate_loop (valid_langs : List String)
    (context : List (String × String)) : List String → Option String
  | [] => none
  | k :: rest =>
    match alistLookup context k with
    | some v =>
      if valid_langs.contains v then some v else disambiguate_loop valid_langs context rest
    | none => disambiguate_loop valid_langs context rest

/-- Embeds `IntentService.disambiguate_lang` (lines 176-200).
`default_lang` stands for the external `get_message_lang(message)`.
The valid set is built exactly as at line 186:
`set([cfg.get("lang", "en-us")] + cfg.get("secondary_langs\x27", []))` —
note that the source reads the list under the key `secondary_langs\x27`
(with a trailing apostrophe inside the key string), not `secondary_langs`. -/
def disambiguate_lang (cfg : LangConfig) (context : List (String × String))
    (default_lang : String) : String :=
  let valid_langs :=
    [cfgGetStr cfg "lang" "en-us"] ++ cfgGetList cfg "secondary_langs\x27" []
  (disambiguate_loop valid_langs context lang_keys).getD default_lang

/-- The event name of the discovery pong listener. -/
def pong_event : String := "ovos.skills.fallback.pong"

/-- The bus listener state visible to `_collect_fallback_skills`: the
multiset of subscribed listeners, by event name (the call-local
`handle_ack` is one entry under `pong_event`). -/
structure Bus where
  listeners : List String
deriving DecidableEq, Repr

/-- Embeds the listener lifecycle of `_collect_fallback_skills`
(lines 100-111) over the bus state: `bus.on` at line 100 registers the
pong listener, the ping is emitted at line 104 (`emit_ok` false models an
exception raised there, between registration and removal), the wait loop
exits on completion or on the 0.5 s deadline (both exits continue
identically; `pongs` is the discovery outcome either way), and
`bus.remove` at line 111 drops the listener.  The source has no
try/finally, so on an exception the function returns `none` with the
listener still subscribed. -/
def collect_fallback_run (reg : Registry) (fb_range : FallbackRange)
    (pongs : List Pong) (emit_ok : Bool) (bus : Bus) :
    Option (List String) × Bus :=
  let bus1 : Bus := { listeners := bus.listeners ++ [pong_event] }
  if emit_ok then
    let fallback_skills := collect_fallback_skills reg fb_range pongs
    (some fallback_skills, { listeners := bus1.listeners.erase pong_event })
  else
    (none, bus1)

/-! ## Association-list lemmas -/

/-- Setting a key makes it the value found by lookup. -/
theorem alistLookup_alistSet_self {α : Type} (d : List (String × α))
    (k : String) (v : α) : alistLookup (alistSet d k v) k = some v := by
  induction d with
  | nil => simp [alistSet, alistLookup]
  | cons h rest ih =>
    by_cases hk : h.1 = k
    · simp [alistSet, alistLookup, hk]
    · simp [alistSet, alistLookup, hk, ih]

/-- A key that is not among the keys is not found. -/
theorem alistLookup_eq_none_of_not_mem {α : Type} (d : List (String × α))
    (k : String) (h : k ∉ d.map Prod.fst) : alistLookup d k = none := by
  induction d with
  | nil => rfl
  | cons hd rest ih =>
    simp only [List.map_cons, List.mem_cons] at h
    push_neg at h
    have hne : hd.1 ≠ k := fun he => h.1 he.symm
    simp [alistLookup, hne, ih h.2]

/-- With duplicate-free keys, popping a key removes it from lookup. -/
theorem alistLookup_alistPop_self {α : Type} (d : List (String × α))
    (k : String) (hnd : (d.map Prod.fst).Nodup) :
    alistLookup (alistPop d k) k = none := by
  induction d with
  | nil => rfl
  | cons hd rest ih =>
    simp only [List.map_cons, List.nodup_cons] at hnd
    by_cases hk : hd.1 = k
    · subst hk
      simp [alistPop, alistLookup_eq_none_of_not_mem rest hd.1 hnd.1]
    · simp [alistPop, alistLookup, hk, ih hnd.2]

/-! ## Stable sort lemmas -/

/-- Membership is preserved by insertion. -/
theorem mem_insertByPriority (x a : String × Int) (l : List (String × Int)) :
    a ∈ insertByPriority x l ↔ a = x ∨ a ∈ l := by
  induction l with
  | nil => simp [insertByPriority]
  | cons y ys ih =>
    by_cases hc : x.2 ≤ y.2
    · simp only [insertByPriority, if_pos hc, List.mem_cons]
    · simp only [insertByPriority, if_neg hc, List.mem_cons, ih]
      tauto

/-- Insertion splits the list at the first element the new one precedes. -/
theorem insertByPriority_eq (x : String × Int) (l : List (String × Int)) :
    insertByPriority x l =
      l.takeWhile (fun y => decide (y.2 < x.2)) ++
        x :: l.dropWhile (fun y => decide (y.2 < x.2)) := by
  induction l with
  | nil => rfl
  | cons y ys ih =>
    by_cases hc : x.2 ≤ y.2
    · have hy : ¬ (y.2 < x.2) := not_lt.mpr hc
      simp [insertByPriority, hc, List.takeWhile_cons, List.dropWhile_cons, hy]
    · have hy : y.2 < x.2 := lt_of_not_le hc
      simp [insertByPriority, hc, List.takeWhile_cons, List.dropWhile_cons, hy, ih]

/-- The original list is a sublist of the result of inserting one element. -/
theorem sublist_insertByPriority (x : String × Int) (l : List (String × Int)) :
    List.Sublist l (insertByPriority x l) := by
  rw [insertByPriority_eq]
  have h1 : List.Sublist (l.dropWhile (fun y => decide (y.2 < x.2)))
      (x :: l.dropWhile (fun y => decide (y.2 < x.2))) :=
    List.sublist_cons_self x _
  have h2 := List.Sublist.append_left h1 (l.takeWhile (fun y => decide (y.2 < x.2)))
  rw [List.takeWhile_append_dropWhile] at h2
  exact h2

/-- Insertion preserves ascending-by-priority ordering. -/
theorem pairwise_insertByPriority (x : String × Int) (l : List (String × Int))
    (h : l.Pairwise (fun a b => a.2 ≤ b.2)) :
    (insertByPriority x l).Pairwise (fun a b => a.2 ≤ b.2) := by
  induction l with
  | nil => simp [insertByPriority]
  | cons y ys ih =>
    rw [List.pairwise_cons] at h
    by_cases hc : x.2 ≤ y.2
    · simp only [insertByPriority, if_pos hc]
      refine List.Pairwise.cons ?_ (List.Pairwise.cons h.1 h.2)
      intro b hb
      rcases List.mem_cons.mp hb with hb | hb
      · exact hb ▸ hc
      · exact le_trans hc (h.1 b hb)
    · simp only [insertByPriority, if_neg hc]
      refine List.Pairwise.cons ?_ (ih h.2)
      intro b hb
      rcases (mem_insertByPriority x b ys).mp hb with hb | hb
      · exact hb ▸ le_of_lt (lt_of_not_le hc)
      · exact h.1 b hb

/-- The stable sort is ascending by priority. -/
theorem pairwise_sortByPriority (l : List (String × Int)) :
    (sortByPriority l).Pairwise (fun a b => a.2 ≤ b.2) := by
  induction l with
  | nil => exact List.Pairwise.nil
  | cons y ys ih => exact pairwise_insertByPriority y _ ih

/-- The stable sort preserves membership. -/
theorem mem_sortByPriority (a : String × Int) (l : List (String × Int)) :
    a ∈ sortByPriority l ↔ a ∈ l := by
  induction l with
  | nil => simp [sortByPriority]
  | cons y ys ih =>
    show a ∈ insertByPriority y (sortByPriority ys) ↔ _
    rw [mem_insertByPriority, ih, List.mem_cons]

/-- Inserting an element before every strictly-smaller-keyed suffix keeps
it in front of any already-present element of greater-or-equal key:
the stability of one insertion step. -/
theorem stable_insertByPriority (a y : String × Int) (l : List (String × Int))
    (hle : a.2 ≤ y.2) (hy : y ∈ l) :
    List.Sublist [a, y] (insertByPriority a l) := by
  rw [insertByPriority_eq]
  have hsplit : y ∈ l.takeWhile (fun z => decide (z.2 < a.2)) ++
      l.dropWhile (fun z => decide (z.2 < a.2)) := by
    rw [List.takeWhile_append_dropWhile]; exact hy
  rcases List.mem_append.mp hsplit with hT | hD
  · have := List.mem_takeWhile_imp hT
    simp only [decide_eq_true_eq] at this
    exact absurd hle (not_le.mpr this)
  · have h1 : List.Sublist [y] (l.dropWhile (fun z => decide (z.2 < a.2))) :=
      List.singleton_sublist.mpr hD
    have h2 : List.Sublist [a, y]
        (a :: l.dropWhile (fun z => decide (z.2 < a.2))) :=
      List.Sublist.cons₂ a h1
    exact h2.trans (List.sublist_append_right _ _)

/-- Stability of the full sort: two elements in key order keep their
relative order, so equal-priority elements stay in input order. -/
theorem stable_sortByPriority (x y : String × Int) (l : List (String × Int))
    (hle : x.2 ≤ y.2) (h : List.Sublist [x, y] l) :
    List.Sublist [x, y] (sortByPriority l) := by
  induction l with
  | nil => cases h
  | cons a rest ih =>
    cases h with
    | cons _ h2 =>
      exact (ih h2).trans (sublist_insertByPriority a (sortByPriority rest))
    | cons₂ _ h2 =>
      have hy : y ∈ sortByPriority rest :=
        (mem_sortByPriority y rest).mpr (List.singleton_sublist.mp h2)
      exact stable_insertByPriority x y (sortByPriority rest) hle hy

/-- The stable sort preserves duplicate-freedom. -/
theorem nodup_sortByPriority (l : List (String × Int)) (h : l.Nodup) :
    (sortByPriority l).Nodup := by
  induction l with
  | nil => exact List.nodup_nil
  | cons a rest ih =>
    rw [List.nodup_cons] at h
    show (insertByPriority a (sortByPriority rest)).Nodup
    rw [insertByPriority_eq]
    rw [List.nodup_middle, List.nodup_cons, List.takeWhile_append_dropWhile]
    exact ⟨fun hmem => h.1 ((mem_sortByPriority a rest).mp hmem), ih h.2⟩

/-! ## Attempt-loop lemmas -/

/-- The attempted handlers are an initial segment of the ordered
candidate list. -/
theorem attempt_loop_trace_append (cfg : FallbackConfig)
    (replies : String → Option SkillReply) (hs : List (String × Int)) :
    ∃ t, hs = (attempt_loop cfg replies hs).2 ++ t := by
  induction hs with
  | nil => exact ⟨[], rfl⟩
  | cons h rest ih =>
    by_cases hc : attempt_fallback cfg h.1 (replies h.1)
    · exact ⟨rest, by simp [attempt_loop, hc]⟩
    · rcases ih with ⟨t, ht⟩
      exact ⟨t, by simp [attempt_loop, hc]; exact ht⟩

/-- The attempted handlers form a sublist of the ordered candidate list. -/
theorem attempt_loop_trace_sublist (cfg : FallbackConfig)
    (replies : String → Option SkillReply) (hs : List (String × Int)) :
    List.Sublist (attempt_loop cfg replies hs).2 hs := by
  rcases attempt_loop_trace_append cfg replies hs with ⟨t, ht⟩
  conv_rhs => rw [ht]
  exact List.sublist_append_left _ t

/-- A successful loop always returns the anonymous fallback match. -/
theorem attempt_loop_some_eq (cfg : FallbackConfig)
    (replies : String → Option SkillReply) (hs : List (String × Int))
    (m : IntentMatch) (h : (attempt_loop cfg replies hs).1 = some m) :
    m = fallbackMatch := by
  induction hs with
  | nil => simp [attempt_loop] at h
  | cons x rest ih =>
    by_cases hc : attempt_fallback cfg x.1 (replies x.1)
    · simp [attempt_loop, hc] at h
      exact h.symm
    · simp [attempt_loop, hc] at h
      exact ih h

/-- The loop stops at the first successful handler: every candidate
before it is attempted and declines, the successful one is attempted
last, and nothing after it is attempted. -/
theorem attempt_loop_first_success (cfg : FallbackConfig)
    (replies : String → Option SkillReply) (pre : List (String × Int))
    (sid : String) (p : Int) (rest : List (String × Int))
    (hpre : ∀ q ∈ pre, attempt_fallback cfg q.1 (replies q.1) = false)
    (hsid : attempt_fallback cfg sid (replies sid) = true) :
    attempt_loop cfg replies (pre ++ (sid, p) :: rest) =
      (some fallbackMatch, pre ++ [(sid, p)]) := by
  induction pre with
  | nil => simp [attempt_loop, hsid]
  | cons q qs ih =>
    have hq : attempt_fallback cfg q.1 (replies q.1) = false :=
      hpre q (List.mem_cons_self q qs)
    have ihq := ih (fun r hr => hpre r (List.mem_cons_of_mem q hr))
    simp [attempt_loop, hq, ihq]

/-- The request trace of `_fallback_range` is the attempt-loop trace on
the sorted willing handlers (the legacy branch sends no direct
per-handler request). -/
theorem fallback_range_trace (cfg : FallbackConfig) (reg : Registry)
    (pongs : List Pong) (replies : String → Option SkillReply)
    (legacy : Option Bool) (fb_range : FallbackRange) :
    (fallback_range cfg reg pongs replies legacy fb_range).2 =
      (attempt_loop cfg replies
        (sortByPriority (willing_handlers reg fb_range pongs))).2 := by
  unfold fallback_range
  rcases hm : (attempt_loop cfg replies
      (sortByPriority (willing_handlers reg fb_range pongs))).1 with _ | m
  · rcases legacy with _ | handled <;> simp [hm]
  · simp [hm]

/-- A band that reports a match reports the anonymous fallback match. -/
theorem fallback_range_some_eq (cfg : FallbackConfig) (reg : Registry)
    (pongs : List Pong) (replies : String → Option SkillReply)
    (legacy : Option Bool) (fb_range : FallbackRange) (m : IntentMatch)
    (h : (fallback_range cfg reg pongs replies legacy fb_range).1 = some m) :
    m = fallbackMatch := by
  rcases hm : (attempt_loop cfg replies
      (sortByPriority (willing_handlers reg fb_range pongs))).1 with _ | m2
  · simp only [fallback_range, hm] at h
    rcases legacy with _ | handled
    · simp at h
    · rcases handled with _ | _
      · simp at h
      · simp at h
        exact h.symm
  · simp only [fallback_range, hm] at h
    have h2 : m2 = m := by simpa using h
    exact h2 ▸ attempt_loop_some_eq cfg replies _ m2 hm

/-! ## Discovery lemmas -/

/-- A skill that never ponged with `can_handle` true is not collected
(fold-level statement). -/
theorem foldl_handle_ack_not_mem (reg : Registry) (sid : String)
    (pongs : List Pong)
    (hp : ∀ q ∈ pongs, q.skill_id = sid → q.can_handle = false) :
    ∀ acc : List String × List String, sid ∉ acc.2 →
      sid ∉ (pongs.foldl (handle_ack reg) acc).2 := by
  induction pongs with
  | nil => exact fun acc hacc => hacc
  | cons q qs ih =>
    intro acc hacc
    have hqs : ∀ r ∈ qs, r.skill_id = sid → r.can_handle = false :=
      fun r hr => hp r (List.mem_cons_of_mem q hr)
    refine ih hqs (handle_ack reg acc q) ?_
    by_cases hq : q.skill_id = sid
    · have hch : q.can_handle = false := hp q (List.mem_cons_self q qs) hq
      simp [handle_ack, hch, hacc]
    · by_cases hcan : q.can_handle
      · by_cases hreg : alistContains reg q.skill_id
        · simp [handle_ack, hcan, hreg, hacc]
          exact fun he => hq he.symm
        · simp [handle_ack, hcan, hreg, hacc]
      · simp [handle_ack, hcan, hacc]

/-- A skill that never ponged with `can_handle` true is not in the
collected willing list. -/
theorem not_mem_collect_fallback_skills (reg : Registry)
    (fb_range : FallbackRange) (pongs : List Pong) (sid : String)
    (hp : ∀ q ∈ pongs, q.skill_id = sid → q.can_handle = false) :
    sid ∉ collect_fallback_skills reg fb_range pongs := by
  unfold collect_fallback_skills
  exact foldl_handle_ack_not_mem reg sid pongs hp _ (by simp)

/-! ## Stage-loop lemmas -/

/-- The invoked stages are an initial segment of the stage list. -/
theorem run_match_funcs_trace_append
    (L : List (String × Option IntentMatch)) :
    ∃ t, L.map Prod.fst = (run_match_funcs L).2 ++ t := by
  induction L with
  | nil => exact ⟨[], rfl⟩
  | cons f rest ih =>
    rcases hf : f.2 with _ | m
    · rcases ih with ⟨t, ht⟩
      exact ⟨t, by simp [run_match_funcs, hf]; exact ht⟩
    · exact ⟨rest.map Prod.fst, by simp [run_match_funcs, hf]⟩

/-- The loop returns the result of the first stage that matches. -/
theorem run_match_funcs_first (L : List (String × Option IntentMatch)) :
    (run_match_funcs L).1 = L.findSome? Prod.snd := by
  induction L with
  | nil => rfl
  | cons f rest ih =>
    rcases hf : f.2 with _ | m
    · simp [run_match_funcs, hf, List.findSome?, ih]
    · simp [run_match_funcs, hf, List.findSome?]

/-- Once a stage with a non-null result is reached, no stage after it is
invoked: every invoked stage name is from the stages up to and including
that one. -/
theorem run_match_funcs_stop (L1 : List (String × Option IntentMatch))
    (x : String × Option IntentMatch)
    (L2 : List (String × Option IntentMatch)) (hx : x.2.isSome) :
    ∀ n ∈ (run_match_funcs (L1 ++ x :: L2)).2, n ∈ L1.map Prod.fst ++ [x.1] := by
  induction L1 with
  | nil =>
    rcases hm : x.2 with _ | m
    · rw [hm] at hx; simp at hx
    · intro n hn
      simp [run_match_funcs, hm] at hn
      simp [hn]
  | cons f rest ih =>
    intro n hn
    rcases hf : f.2 with _ | m
    · simp only [List.cons_append, run_match_funcs, hf] at hn
      rcases List.mem_cons.mp hn with hn | hn
      · simp [hn]
      · have := ih n hn
        simp only [List.map_cons, List.cons_append, List.mem_cons]
        right
        simpa using this
    · simp only [List.cons_append, run_match_funcs, hf, List.mem_singleton] at hn
      simp [hn]

/-! ## Concrete fixtures used by the claim theorems -/

/-- Default fallback configuration: no overrides, accept-all mode. -/
def cfg0 : FallbackConfig := {}

/-- A configuration with the static priority override of handler H to 3. -/
def cfgOverrideH : FallbackConfig := { fallback_priorities := [("H", 3)] }

/-- Registry holding A at priority 2 and B at priority 4, built through
the register handler. -/
def regAB : Registry :=
  handle_register_fallback cfg0
    (handle_register_fallback cfg0 [] "A" (some 2)) "B" (some 4)

/-- External matchers that all decline. -/
def declineAll : MatcherResults :=
  { converse := none, padatious_high := none, adapt := none,
    common_qa := none, padatious_medium := none, padatious_low := none }

/-- A band environment in which nothing answers: no pongs, every direct
request times out, no legacy response. -/
def emptyEnv : BandEnv :=
  { pongs := [], replies := fun _ => none, legacy := none }

/-- The band environment of the high-band test case of the spec: A and B both
pong willing; A replies `result=false`, B replies `result=true`; no
legacy response. -/
def envAB : BandEnv :=
  { pongs := [{ skill_id := "A", can_handle := true },
              { skill_id := "B", can_handle := true }],
    replies := fun s =>
      if s = "A" then some { err := none, result := some false }
      else some { err := none, result := some true },
    legacy := none }

/-! ## Claim theorems -/

/-- C4: registry semantics.  Deregistering an unregistered id (in
particular a second consecutive deregister) leaves the registry
unchanged; re-registering replaces the stored priority with the new one
(absent an override and for a truthy priority); with a static override,
every registration of that id stores the override priority irrespective
of the self-reported priority and of the prior registry contents; and
the override `{H: 3}` places H in the high band `(0,5]` even though H
self-reports priority 50. -/
theorem C4_registry_semantics :
    (∀ (reg : Registry) (sid : String), alistContains reg sid = false →
      handle_deregister_fallback reg sid = reg) ∧
    (∀ (reg : Registry) (sid : String), (reg.map Prod.fst).Nodup →
      handle_deregister_fallback (handle_deregister_fallback reg sid) sid =
        handle_deregister_fallback reg sid) ∧
    (∀ (cfg : FallbackConfig) (reg : Registry) (sid : String) (p : Int),
      alistLookup cfg.fallback_priorities sid = none → p ≠ 0 →
      alistLookup (handle_register_fallback cfg reg sid (some p)) sid = some p) ∧
    (∀ (cfg : FallbackConfig) (reg : Registry) (sid : String)
      (p : Option Int) (o : Int),
      alistLookup cfg.fallback_priorities sid = some o →
      alistLookup (handle_register_fallback cfg reg sid p) sid = some o) ∧
    (alistLookup (handle_register_fallback cfgOverrideH [] "H" (some 50)) "H" =
        some 3 ∧
      inBand (FallbackRange.mk 0 5) 3 = true) := by
  refine ⟨?_, ?_, ?_, ?_, by decide⟩
  · intro reg sid h
    simp [handle_deregister_fallback, h]
  · intro reg sid hnd
    by_cases h : alistContains reg sid
    · have h1 : handle_deregister_fallback reg sid = alistPop reg sid := by
        simp [handle_deregister_fallback, h]
      have h2 : alistContains (alistPop reg sid) sid = false := by
        simp [alistContains, alistLookup_alistPop_self reg sid hnd]
      rw [h1]
      simp [handle_deregister_fallback, h2]
    · have h1 : handle_deregister_fallback reg sid = reg := by
        simp [handle_deregister_fallback, h]
      rw [h1, h1]
  · intro cfg reg sid p hov hp
    simp [handle_register_fallback, hov, hp, alistLookup_alistSet_self]
  · intro cfg reg sid p o hov
    simp [handle_register_fallback, hov, alistLookup_alistSet_self]

/-- C10: a register event with an absent priority field, and one with
the Python-falsy explicit priority 0, both store priority 101 (absent a
static override), which lies in the low band `(90,101]` served by
`low_prio` and not in the high band `(0,5]`. -/
theorem C10_falsy_priority_defaults_to_101 (cfg : FallbackConfig)
    (reg : Registry) (sid : String)
    (hov : alistLookup cfg.fallback_priorities sid = none) :
    alistLookup (handle_register_fallback cfg reg sid none) sid = some 101 ∧
    alistLookup (handle_register_fallback cfg reg sid (some 0)) sid = some 101 ∧
    inBand (FallbackRange.mk 90 101) 101 = true ∧
    inBand (FallbackRange.mk 0 5) 101 = false := by
  refine ⟨?_, ?_, by decide, by decide⟩
  · simp [handle_register_fallback, hov, alistLookup_alistSet_self]
  · simp [handle_register_fallback, hov, alistLookup_alistSet_self]

/-- Witness for C10 at a concrete input: the default configuration has
no override for H. -/
theorem C10_falsy_priority_defaults_to_101_witness :
    alistLookup cfg0.fallback_priorities "H" = none ∧
    (alistLookup (handle_register_fallback cfg0 [] "H" none) "H" = some 101 ∧
      alistLookup (handle_register_fallback cfg0 [] "H" (some 0)) "H" = some 101 ∧
      inBand (FallbackRange.mk 90 101) 101 = true ∧
      inBand (FallbackRange.mk 0 5) 101 = false) :=
  ⟨by decide, C10_falsy_priority_defaults_to_101 cfg0 [] "H" (by decide)⟩

/-- C5: the claim says `disambiguate_lang` accepts any present context
value lying in the configured default language plus `secondary_langs`.
The code at line 186 reads the configuration key `secondary_langs` with
a stray trailing apostrophe inside the key string, so the configured
`secondary_langs` list is never consulted: with config
`lang=en-us, secondary_langs=[pt-pt]` and context `stt_lang=pt-pt`, the
code skips pt-pt as invalid and returns en-us where the claim expects
pt-pt.  The conjuncts evaluate the embedded code at that failing input
and exhibit the misread key. -/
theorem C5_secondary_langs_key_misread :
    disambiguate_lang
        { strCfg := [("lang", "en-us")],
          listCfg := [("secondary_langs", ["pt-pt"])] }
        [("stt_lang", "pt-pt")] "en-us" = "en-us" ∧
    cfgGetList
        { strCfg := [("lang", "en-us")],
          listCfg := [("secondary_langs", ["pt-pt"])] }
        "secondary_langs" [] = ["pt-pt"] ∧
    cfgGetList
        { strCfg := [("lang", "en-us")],
          listCfg := [("secondary_langs", ["pt-pt"])] }
        "secondary_langs\x27" [] = [] ∧
    disambiguate_lang
        { strCfg := [("lang", "en-us")],
          listCfg := [("secondary_langs\x27", ["pt-pt"])] }
        [("stt_lang", "pt-pt")] "en-us" = "pt-pt" := by
  refine ⟨by decide, by decide, by decide, by decide⟩

/-- C7: per-handler attempt error handling.  A reply carrying an error
field is a decline whatever else it carries; a reply whose result entry
is false or absent is a decline; a missing (timed-out) reply is a
decline; and a declining handler only makes the ordered loop move on to
the next candidate, prefixing the trace with the declining handler. -/
theorem C7_attempt_decline_semantics :
    (∀ (cfg : FallbackConfig) (sid e : String) (res : Option Bool),
      attempt_fallback cfg sid (some { err := some e, result := res }) = false) ∧
    (∀ (cfg : FallbackConfig) (sid : String),
      attempt_fallback cfg sid (some { err := none, result := some false }) =
        false) ∧
    (∀ (cfg : FallbackConfig) (sid : String),
      attempt_fallback cfg sid (some { err := none, result := none }) = false) ∧
    (∀ (cfg : FallbackConfig) (sid : String),
      attempt_fallback cfg sid none = false) ∧
    (∀ (cfg : FallbackConfig) (replies : String → Option SkillReply)
      (x : String × Int) (rest : List (String × Int)),
      attempt_fallback cfg x.1 (replies x.1) = false →
      attempt_loop cfg replies (x :: rest) =
        ((attempt_loop cfg replies rest).1,
          x :: (attempt_loop cfg replies rest).2)) := by
  refine ⟨?_, ?_, ?_, ?_, ?_⟩
  · intro cfg sid e res
    by_cases h : fallback_allowed cfg sid <;> simp [attempt_fallback, h]
  · intro cfg sid
    by_cases h : fallback_allowed cfg sid <;> simp [attempt_fallback, h]
  · intro cfg sid
    by_cases h : fallback_allowed cfg sid <;> simp [attempt_fallback, h]
  · intro cfg sid
    by_cases h : fallback_allowed cfg sid <;> simp [attempt_fallback, h]
  · intro cfg replies x rest h
    simp [attempt_loop, h]

/-- C9 counterexample: an exception raised between listener registration
and removal (here: the ping emit fails) leaves the call-local pong
listener subscribed, because lines 100-111 have no try/finally.  On an
initially empty bus the run ends with the listener still present. -/
theorem C9_listener_leak_on_exception :
    (collect_fallback_run [] (FallbackRange.mk 0 100) [] false
        { listeners := [] }).2.listeners = [pong_event] ∧
    (collect_fallback_run [] (FallbackRange.mk 0 100) [] false
        { listeners := [] }).1 = none := by
  refine ⟨by decide, by decide⟩

/-- C9 (amended): on the two non-exceptional exit paths — normal
completion and discovery timeout, both covered by an arbitrary processed
pong list — the pong listener registered at line 100 is removed at
line 111: the subscription count returns to its initial value, and an
initially listener-free bus is restored exactly. -/
theorem C9_listener_removed_without_exception (reg : Registry)
    (fb_range : FallbackRange) (pongs : List Pong) (bus : Bus) :
    ((collect_fallback_run reg fb_range pongs true bus).2.listeners).count
        pong_event = bus.listeners.count pong_event ∧
    (pong_event ∉ bus.listeners →
      (collect_fallback_run reg fb_range pongs true bus).2.listeners =
        bus.listeners) := by
  constructor
  · show ((bus.listeners ++ [pong_event]).erase pong_event).count pong_event = _
    have hmem : pong_event ∈ bus.listeners ++ [pong_event] := by simp
    rw [List.count_erase_self, List.count_append]
    simp
  · intro hnm
    show (bus.listeners ++ [pong_event]).erase pong_event = bus.listeners
    rw [List.erase_append_right _ hnm]
    simp

/-- Witness for C9 at a concrete input with a non-trivial initial bus. -/
theorem C9_listener_removed_without_exception_witness :
    pong_event ∉ ["other.event"] ∧
    (collect_fallback_run [("A", 2)] (FallbackRange.mk 0 5)
        [{ skill_id := "A", can_handle := true }] true
        { listeners := ["other.event"] }).2.listeners = ["other.event"] :=
  ⟨by decide,
    (C9_listener_removed_without_exception [("A", 2)] (FallbackRange.mk 0 5)
      [{ skill_id := "A", can_handle := true }]
      { listeners := ["other.event"] }).2 (by decide)⟩

/-- C3 counterexample: a registered handler H with priority 50, outside
the requested high band `(0,5]`, that answers the discovery ping with
`can_handle=true` does receive a direct per-handler attempt request for
that band: `handle_ack` and the willing-handler comprehension never
consult the band.  Here H declines the attempt, and the request trace of
the band is exactly `[H]`. -/
theorem C3_out_of_band_attempted_when_willing :
    inBand (FallbackRange.mk 0 5) 50 = false ∧
    ((fallback_range cfg0 [("H", 50)]
        [{ skill_id := "H", can_handle := true }]
        (fun _ => some { err := none, result := some false }) none
        (FallbackRange.mk 0 5)).2).map Prod.fst = ["H"] := by
  refine ⟨by decide, by decide⟩

/-- C3 (amended): a registered handler whose priority lies outside the
band never receives a direct per-handler attempt request for that band,
provided it does not reply to the discovery ping with `can_handle=true`
(no pong, or a pong with `can_handle=false`); if it does send a willing
pong, the code attempts it despite being out of band (see the
counterexample). -/
theorem C3_out_of_band_never_attempted_unless_willing_pong
    (cfg : FallbackConfig) (reg : Registry) (pongs : List Pong)
    (replies : String → Option SkillReply) (legacy : Option Bool)
    (fb_range : FallbackRange) (sid : String) (p : Int)
    (hreg : (sid, p) ∈ reg) (hband : inBand fb_range p = false)
    (hpong : ∀ q ∈ pongs, q.skill_id = sid → q.can_handle = false) :
    sid ∉ ((fallback_range cfg reg pongs replies legacy fb_range).2).map
      Prod.fst := by
  intro hmem
  rw [fallback_range_trace] at hmem
  rcases List.mem_map.mp hmem with ⟨q, hq, hq1⟩
  have hq2 : q ∈ sortByPriority (willing_handlers reg fb_range pongs) :=
    (attempt_loop_trace_sublist cfg replies _).mem hq
  have hq3 : q ∈ willing_handlers reg fb_range pongs :=
    (mem_sortByPriority q _).mp hq2
  have hq4 := List.mem_filter.mp hq3
  have hq5 : sid ∈ collect_fallback_skills reg fb_range pongs := by
    have := hq4.2
    simp only [List.contains, List.elem_eq_mem, decide_eq_true_eq] at this
    exact hq1 ▸ this
  exact not_mem_collect_fallback_skills reg fb_range pongs sid hpong hq5

/-- Witness for C3 (amended) at a concrete input: H at priority 50 is
outside `(0,5]`, ponged with `can_handle=false`, and is absent from the
request trace. -/
theorem C3_out_of_band_never_attempted_unless_willing_pong_witness :
    ("H", (50 : Int)) ∈ ([("H", 50)] : Registry) ∧
    inBand (FallbackRange.mk 0 5) 50 = false ∧
    (∀ q ∈ [Pong.mk "H" false], q.skill_id = "H" → q.can_handle = false) ∧
    "H" ∉ ((fallback_range cfg0 [("H", 50)] [Pong.mk "H" false]
        (fun _ => some { err := none, result := some true }) none
        (FallbackRange.mk 0 5)).2).map Prod.fst :=
  ⟨by decide, by decide, by decide,
    C3_out_of_band_never_attempted_unless_willing_pong cfg0 [("H", 50)]
      [Pong.mk "H" false] (fun _ => some { err := none, result := some true })
      none (FallbackRange.mk 0 5) "H" 50 (by decide) (by decide) (by decide)⟩

/-- C2: in one band broadcast, the direct attempt requests go out in
ascending priority order — a handler with strictly smaller priority is
attempted strictly before one with larger priority — and equal-priority
handlers are attempted in stable registry (registration) order: if x
stands before y among the willing in-band handlers in registration
order with equal priority and y was attempted, then x was attempted
before y.  Requires the dict invariant that registry keys are unique. -/
theorem C2_ascending_priority_attempt_order (cfg : FallbackConfig)
    (reg : Registry) (pongs : List Pong)
    (replies : String → Option SkillReply) (legacy : Option Bool)
    (fb_range : FallbackRange) (hnd : (reg.map Prod.fst).Nodup) :
    (∀ i j : Fin (fallback_range cfg reg pongs replies legacy fb_range).2.length,
      ((fallback_range cfg reg pongs replies legacy fb_range).2.get i).2 <
        ((fallback_range cfg reg pongs replies legacy fb_range).2.get j).2 →
      (i : Nat) < (j : Nat)) ∧
    (∀ x y : String × Int, x.2 = y.2 →
      List.Sublist [x, y] (willing_handlers reg fb_range pongs) →
      y ∈ (fallback_range cfg reg pongs replies legacy fb_range).2 →
      List.Sublist [x, y]
        (fallback_range cfg reg pongs replies legacy fb_range).2) := by
  have hA := fallback_range_trace cfg reg pongs replies legacy fb_range
  have hpw : ((fallback_range cfg reg pongs replies legacy fb_range).2).Pairwise
      (fun a b => a.2 ≤ b.2) := by
    rw [hA]
    exact (pairwise_sortByPriority _).sublist (attempt_loop_trace_sublist _ _ _)
  constructor
  · intro i j hlt
    by_contra hc
    push_neg at hc
    rcases eq_or_lt_of_le hc with he | hl
    · have : i = j := Fin.ext he.symm
      subst this
      exact lt_irrefl _ hlt
    · have hj : j < i := hl
      have := List.pairwise_iff_get.mp hpw j i hj
      exact absurd hlt (not_lt.mpr this)
  · intro x y hxy hW hy
    have hNdW : (willing_handlers reg fb_range pongs).Nodup :=
      (List.Nodup.of_map Prod.fst hnd).filter _
    have hNdS : (sortByPriority (willing_handlers reg fb_range pongs)).Nodup :=
      nodup_sortByPriority _ hNdW
    have hS : List.Sublist [x, y]
        (sortByPriority (willing_handlers reg fb_range pongs)) :=
      stable_sortByPriority x y _ (le_of_eq hxy) hW
    rcases attempt_loop_trace_append cfg replies
        (sortByPriority (willing_handlers reg fb_range pongs)) with ⟨t, ht⟩
    rw [hA]
    rw [hA] at hy
    rw [ht] at hS hNdS
    have hdisj := (List.nodup_append.mp hNdS).2.2
    rcases List.sublist_append_iff.mp hS with ⟨r1, r2, hr, h1, h2⟩
    rcases r1 with _ | ⟨a, r1tl⟩
    · simp only [List.nil_append] at hr
      subst hr
      exact absurd (hdisj hy (h2.mem (by simp))) (fun h => h)
    · rcases r1tl with _ | ⟨b, r⟩
      · simp only [List.cons_append, List.cons.injEq] at hr
        rcases hr with ⟨ha, hr2⟩
        have hyt : y ∈ r2 := by
          have hr3 : r2 = [y] := by simpa using hr2.symm
          simp [hr3]
        exact absurd (hdisj hy (h2.mem hyt)) (fun h => h)
      · simp only [List.cons_append, List.cons.injEq] at hr
        rcases hr with ⟨ha, hb, hrest⟩
        have hnil : r = [] ∧ r2 = [] := by
          constructor
          · cases r with
            | nil => rfl
            | cons u us => simp at hrest
          · cases r with
            | nil => simpa using hrest.symm
            | cons u us => simp at hrest
        subst ha hb
        rcases hnil with ⟨hrnil, -⟩
        subst hrnil
        exact h1

/-- Registry holding A and B at the same priority 3, in that
registration order. -/
def regTie : Registry :=
  handle_register_fallback cfg0
    (handle_register_fallback cfg0 [] "A" (some 3)) "B" (some 3)

/-- Witness for C2 at concrete inputs: with A at 2 and B at 4 both
willing, index 0 (A) precedes index 1 (B); with the tie registry, A
keeps its registration-order place before B among the attempts. -/
theorem C2_ascending_priority_attempt_order_witness :
    (regAB.map Prod.fst).Nodup ∧ (0 : Nat) < 1 ∧
    (regTie.map Prod.fst).Nodup ∧
    List.Sublist [("A", (3 : Int)), ("B", (3 : Int))]
      (fallback_range cfg0 regTie
        [{ skill_id := "A", can_handle := true },
         { skill_id := "B", can_handle := true }]
        (fun _ => none) none (FallbackRange.mk 0 5)).2 :=
  ⟨by decide,
    (C2_ascending_priority_attempt_order cfg0 regAB envAB.pongs envAB.replies
        envAB.legacy (FallbackRange.mk 0 5) (by decide)).1
      ⟨0, by decide⟩ ⟨1, by decide⟩ (by decide),
    by decide,
    (C2_ascending_priority_attempt_order cfg0 regTie
        [{ skill_id := "A", can_handle := true },
         { skill_id := "B", can_handle := true }]
        (fun _ => none) none (FallbackRange.mk 0 5) (by decide)).2
      ("A", 3) ("B", 3) rfl (List.Sublist.refl _) (by decide)⟩

/-- C1: the nine matching stages are attempted in exactly the fixed
source order (the invoked-stage trace is an initial segment of the fixed
duplicate-free stage list, so each stage runs at most once and never out
of order); the returned match is the result of the first stage returning
a non-null match; and if the keyword (adapt) stage returns a match, no
fallback band and no later statistical stage is ever invoked. -/
theorem C1_nine_stage_fixed_order_short_circuit (ext : MatcherResults)
    (cfg : FallbackConfig) (reg : Registry) (envH envM envL : BandEnv) :
    (match_funcs ext cfg reg envH envM envL).map Prod.fst = stageNames ∧
    stageNames.Nodup ∧
    (∃ t, stageNames =
      (run_match_funcs (match_funcs ext cfg reg envH envM envL)).2 ++ t) ∧
    (run_match_funcs (match_funcs ext cfg reg envH envM envL)).2.Nodup ∧
    (run_match_funcs (match_funcs ext cfg reg envH envM envL)).1 =
      (match_funcs ext cfg reg envH envM envL).findSome? Prod.snd ∧
    (ext.adapt.isSome →
      ∀ s ∈ ["fallback_high", "padatious_medium", "fallback_medium",
             "padatious_low", "fallback_low"],
        s ∉ (run_match_funcs (match_funcs ext cfg reg envH envM envL)).2) := by
  have hmap : (match_funcs ext cfg reg envH envM envL).map Prod.fst =
      stageNames := rfl
  have hnd : stageNames.Nodup := by decide
  have hpre := run_match_funcs_trace_append (match_funcs ext cfg reg envH envM envL)
  rw [hmap] at hpre
  refine ⟨hmap, hnd, hpre, ?_, run_match_funcs_first _, ?_⟩
  · rcases hpre with ⟨t, ht⟩
    rw [ht] at hnd
    exact hnd.of_append_left
  · intro hsome s hs hmem
    have hdec : match_funcs ext cfg reg envH envM envL =
        [("converse", ext.converse), ("padatious_high", ext.padatious_high)] ++
          ("adapt", ext.adapt) ::
            [("common_qa", ext.common_qa),
             ("fallback_high",
               (high_prio cfg reg envH.pongs envH.replies envH.legacy).1),
             ("padatious_medium", ext.padatious_medium),
             ("fallback_medium",
               (medium_prio cfg reg envM.pongs envM.replies envM.legacy).1),
             ("padatious_low", ext.padatious_low),
             ("fallback_low",
               (low_prio cfg reg envL.pongs envL.replies envL.legacy).1)] := rfl
    have h3 := run_match_funcs_stop
      [("converse", ext.converse), ("padatious_high", ext.padatious_high)]
      ("adapt", ext.adapt)
      [("common_qa", ext.common_qa),
       ("fallback_high",
         (high_prio cfg reg envH.pongs envH.replies envH.legacy).1),
       ("padatious_medium", ext.padatious_medium),
       ("fallback_medium",
         (medium_prio cfg reg envM.pongs envM.replies envM.legacy).1),
       ("padatious_low", ext.padatious_low),
       ("fallback_low",
         (low_prio cfg reg envL.pongs envL.replies envL.legacy).1)]
      hsome s (hdec ▸ hmem)
    simp only [List.map_cons, List.map_nil, List.cons_append, List.nil_append,
      List.mem_cons, List.not_mem_nil, or_false] at h3
    fin_cases hs <;> simp_all

/-- C6: a band broadcast that reports a match always reports
`IntentMatch("Fallback", none, {}, none)` — the responding handler
identity is never surfaced; within the ordered attempt loop the first
handler replying handled stops all further attempts; and in the concrete
case (all earlier stages decline, high band holds A at 2 replying false
and B at 4 replying true) the routed result is that anonymous fallback
match, the pipeline stops at the high band, and the band attempts A
strictly before B. -/
theorem C6_first_handled_stops_band_and_match_is_anonymous :
    (∀ (cfg : FallbackConfig) (reg : Registry) (pongs : List Pong)
      (replies : String → Option SkillReply) (legacy : Option Bool)
      (fb_range : FallbackRange) (m : IntentMatch),
      (fallback_range cfg reg pongs replies legacy fb_range).1 = some m →
      m = fallbackMatch) ∧
    (∀ (cfg : FallbackConfig) (replies : String → Option SkillReply)
      (pre : List (String × Int)) (sid : String) (p : Int)
      (rest : List (String × Int)),
      (∀ q ∈ pre, attempt_fallback cfg q.1 (replies q.1) = false) →
      attempt_fallback cfg sid (replies sid) = true →
      attempt_loop cfg replies (pre ++ (sid, p) :: rest) =
        (some fallbackMatch, pre ++ [(sid, p)])) ∧
    ((handle_utterance declineAll cfg0 regAB envAB emptyEnv emptyEnv).1 =
        some fallbackMatch ∧
      (handle_utterance declineAll cfg0 regAB envAB emptyEnv emptyEnv).2.1 =
        ["converse", "padatious_high", "adapt", "common_qa", "fallback_high"] ∧
      fallbackMatch.intent_type = none ∧
      fallbackMatch.skill_id = none ∧
      fallbackMatch.intent_data = [] ∧
      (high_prio cfg0 regAB envAB.pongs envAB.replies envAB.legacy).2 =
        [("A", 2), ("B", 4)]) := by
  refine ⟨?_, ?_, by decide⟩
  · intro cfg reg pongs replies legacy fb_range m h
    exact fallback_range_some_eq cfg reg pongs replies legacy fb_range m h
  · intro cfg replies pre sid p rest hpre hsid
    exact attempt_loop_first_success cfg replies pre sid p rest hpre hsid

/-- C8: when every one of the nine stages declines, the routing call
returns a null match and emits exactly one terminal failure signal; when
some stage produces a match, no terminal failure signal is emitted; and
in the concrete case of an empty registry with all matchers declining,
the result is null with exactly the one failure emission. -/
theorem C8_exhaustion_failure_signal (ext : MatcherResults)
    (cfg : FallbackConfig) (reg : Registry) (envH envM envL : BandEnv) :
    ((∀ f ∈ match_funcs ext cfg reg envH envM envL, f.2 = none) →
      (handle_utterance ext cfg reg envH envM envL).1 = none ∧
      ((handle_utterance ext cfg reg envH envM envL).2.2).count
        Emission.intent_failure = 1) ∧
    (∀ m : IntentMatch,
      (handle_utterance ext cfg reg envH envM envL).1 = some m →
      ((handle_utterance ext cfg reg envH envM envL).2.2).count
        Emission.intent_failure = 0) ∧
    ((handle_utterance declineAll cfg0 [] emptyEnv emptyEnv emptyEnv).1 =
        none ∧
      (handle_utterance declineAll cfg0 [] emptyEnv emptyEnv emptyEnv).2.2 =
        [Emission.intent_failure]) := by
  refine ⟨?_, ?_, by decide⟩
  · intro hall
    have h1 : (run_match_funcs (match_funcs ext cfg reg envH envM envL)).1 =
        none := by
      rw [run_match_funcs_first]
      exact List.findSome?_eq_none_iff.mpr hall
    constructor
    · exact h1
    · show (match (run_match_funcs (match_funcs ext cfg reg envH envM envL)).1
          with
          | some m =>
            if pyTruthyStrOpt m.intent_type then
              [Emission.reply (m.intent_type.getD "")]
            else []
          | none => [Emission.intent_failure]).count Emission.intent_failure = 1
      rw [h1]
      decide
  · intro m hm
    have hm2 : (run_match_funcs (match_funcs ext cfg reg envH envM envL)).1 =
        some m := hm
    show (match (run_match_funcs (match_funcs ext cfg reg envH envM envL)).1
        with
        | some m =>
          if pyTruthyStrOpt m.intent_type then
            [Emission.reply (m.intent_type.getD "")]
          else []
        | none => [Emission.intent_failure]).count Emission.intent_failure = 0
    rw [hm2]
    by_cases ht : pyTruthyStrOpt m.intent_type
    · simp [ht, List.count_cons]
    · simp [ht]
